import Mathlib

/-!
Verification development for the voucher OCR extraction pipeline (src/app.py).

The Python source is shallowly embedded as executable Lean definitions:

* OCR text is a `List Char`; each regular expression used by the source is
  hand-compiled into a matcher over `List Char` that implements the exact
  semantics of `re.search` on that pattern (leftmost start position wins,
  greedy and lazy quantifiers over single character classes are realised by
  trying run lengths in the corresponding order, the optional period of
  `Venc\.?` genuinely backtracks, the lookahead of the supplier pattern is
  a zero-width test, and `$` also matches just before a final newline).
  Case-insensitive matching (`re.IGNORECASE`) folds ASCII letters, which is
  exact for every keyword of the source; the Latin-1 repertoire of the
  supplier character class is modelled by its raw code-point ranges.
* Images are functions from channel/row/column to an 8-bit intensity,
  together with explicit height, width and channel count.  The OpenCV calls
  of `preprocess_image` are modelled arithmetically: `cv2.resize` by its
  output geometry (the interpolated values are floating point and are not
  load bearing for any claim, so the resized pixels are modelled by
  nearest-source sampling), `cv2.cvtColor` by the fixed-point BGR luma sum,
  `cv2.convertScaleAbs` by saturating round-half-to-even of `1.5 * v`,
  `cv2.medianBlur` by the 3x3 replicated-border median, and the Otsu
  threshold by the exact-rational transcription of the OpenCV scan
  (`getThreshVal_Otsu_8u`), followed by the strict `THRESH_BINARY` compare.
  The resize width `int(w * (2000 / h))` is computed in binary64 floating
  point by the source; it is modelled exactly by 53-bit round-to-nearest-
  even significand arithmetic over naturals (`fl53Frac`), and when it is
  zero `cv2.resize` raises, which `preprocess_image_run` models as an
  `Except` error.
* The per-image loop of `processar_imagens` is embedded as a fold over the
  decoded items, with the external OCR engine as an oracle argument that
  either returns recognized text or raises (returns an error message), and
  Python truthiness (`x or default`, `if numero_vale and ...`,
  `a if a else b`) translated explicitly.  The normalization call of each
  iteration sits outside the per-item exception handler, so its resize
  error aborts the fold; the OCR and extraction errors are caught per item.
-/

/-- Characters treated as whitespace by the `\s` class and by `str.strip`
in the source (ASCII subset of the Python definition). -/
def pySpace (c : Char) : Bool :=
  c = ' ' || c = '\t' || c = '\n' || c = '\r' || c = '\x0b' || c = '\x0c'

/-- Characters matched by `\d` (ASCII decimal digits). -/
def pyDigit (c : Char) : Bool :=
  '0' ≤ c && c ≤ '9'

/-- ASCII lower-casing, the case folding applied by `re.IGNORECASE` to every
keyword occurring in the source patterns. -/
def asciiLower (c : Char) : Char :=
  if 'A' ≤ c && c ≤ 'Z' then Char.ofNat (c.toNat + 32) else c

/-- Match a literal character sequence case-sensitively at the head of the
input, returning the rest on success. -/
def litM : List Char → List Char → Option (List Char)
  | [], xs => some xs
  | _ :: _, [] => none
  | p :: ps, x :: xs => if x = p then litM ps xs else none

/-- Match a literal character sequence case-insensitively (ASCII folding)
at the head of the input, returning the rest on success. -/
def litCI : List Char → List Char → Option (List Char)
  | [], xs => some xs
  | _ :: _, [] => none
  | p :: ps, x :: xs => if asciiLower x = asciiLower p then litCI ps xs else none

/-- Length of the maximal prefix run of characters satisfying `p`. -/
def runLen (p : Char → Bool) : List Char → Nat
  | [] => 0
  | c :: r => if p c then runLen p r + 1 else 0

/-- Drop the maximal prefix run satisfying `p` (the effect of a greedy
class quantifier whose continuation cannot consume class characters). -/
def dropRun (p : Char → Bool) (xs : List Char) : List Char :=
  xs.drop (runLen p xs)

/-- Take the maximal prefix run satisfying `p`. -/
def takeRun (p : Char → Bool) (xs : List Char) : List Char :=
  xs.take (runLen p xs)

/-- The search strategy of `re.search`: attempt the matcher at every start
position from the left; the first position with a successful (backtracking)
match wins. -/
def searchAux (m : List Char → Option α) : List Char → Option α
  | [] => m []
  | c :: r =>
    match m (c :: r) with
    | some a => some a
    | none => searchAux m r

/-- Try `f` at `k, k+1, ..., k+n` in order (lazy-quantifier expansion). -/
def tryUpAux (f : Nat → Option α) : Nat → Nat → Option α
  | k, 0 => f k
  | k, n + 1 =>
    match f k with
    | some a => some a
    | none => tryUpAux f (k + 1) n

/-- Try `f` at `n, n-1, ..., 0` in order (greedy-quantifier backtracking
over a run length). -/
def tryDownAux (f : Nat → Option α) : Nat → Option α
  | 0 => f 0
  | n + 1 =>
    match f (n + 1) with
    | some a => some a
    | none => tryDownAux f n

/-- Matcher for the date component `\d{1,2}/\d{1,2}/\d{4}`: on success
returns the matched date text and the remaining input.  The `{1,2}`
quantifiers are deterministic here because a digit run of length three or
more can never be followed by the mandatory slash under any backtracking
split, and `{4}` consumes exactly four digits. -/
def dateAt (xs : List Char) : Option (List Char × List Char) :=
  let r := runLen pyDigit xs
  if r = 1 || r = 2 then
    match dropRun pyDigit xs with
    | '/' :: ys =>
      let r2 := runLen pyDigit ys
      if r2 = 1 || r2 = 2 then
        match dropRun pyDigit ys with
        | '/' :: zs =>
          if 4 ≤ runLen pyDigit zs then
            some (takeRun pyDigit xs ++ '/' :: (takeRun pyDigit ys ++ '/' :: zs.take 4),
                  zs.drop 4)
          else none
        | _ => none
      else none
    | _ => none
  else none

/-- Checker for the day/month/year textual shape `\d{1,2}/\d{1,2}/\d{4}`. -/
def isDateShape (d : List Char) : Bool :=
  let a := d.takeWhile pyDigit
  (a.length = 1 || a.length = 2) &&
    match d.dropWhile pyDigit with
    | '/' :: m =>
      let b := m.takeWhile pyDigit
      (b.length = 1 || b.length = 2) &&
        match m.dropWhile pyDigit with
        | '/' :: y => y.length = 4 && y.all pyDigit
        | _ => false
    | _ => false

/-! ### Due-date extractor (`extract_due_date`, src/app.py lines 133-155)

Primary pattern (case-sensitive):
`Data\s*[\.:]\s*\d{1,2}/\d{1,2}/\d{4}\s*[aAà]\s*(\d{1,2}/\d{1,2}/\d{4})`.
The matcher returns both dates of the range; only the second (the capture
group) is reported by the extractor. -/

/-- Attempt of the primary range pattern at a fixed start position. -/
def primaryAt (xs : List Char) : Option (List Char × List Char) :=
  match litM (("Data").toList) xs with
  | none => none
  | some r0 =>
    match dropRun pySpace r0 with
    | [] => none
    | c :: r1 =>
      if c = '.' || c = ':' then
        match dateAt (dropRun pySpace r1) with
        | none => none
        | some (d1, r2) =>
          match dropRun pySpace r2 with
          | [] => none
          | a :: r3 =>
            if a = 'a' || a = 'A' || a = 'à' then
              match dateAt (dropRun pySpace r3) with
              | none => none
              | some (d2, _) => some (d1, d2)
            else none
      else none

/-- Shared tail of the fallback patterns: `\s*[\.:]\s*(\d{1,2}/\d{1,2}/\d{4})`,
returning the captured date. -/
def sepThenDate (r : List Char) : Option (List Char) :=
  match dropRun pySpace r with
  | [] => none
  | c :: r1 =>
    if c = '.' || c = ':' then (dateAt (dropRun pySpace r1)).map (fun p => p.1)
    else none

/-- Attempt of the fallback pattern `Vencimento\s*[\.:]\s*(date)` at a fixed
start position (case-sensitive, as in the source). -/
def venc1At (xs : List Char) : Option (List Char) :=
  match litM (("Vencimento").toList) xs with
  | none => none
  | some r => sepThenDate r

/-- Attempt of the fallback pattern `Venc\.?\s*[\.:]\s*(date)` at a fixed
start position.  The optional period backtracks: if consuming it does not
lead to a match, it is left for the `[\.:]` separator. -/
def venc2At (xs : List Char) : Option (List Char) :=
  match litM (("Venc").toList) xs with
  | none => none
  | some r =>
    match r with
    | '.' :: r2 =>
      match sepThenDate r2 with
      | some d => some d
      | none => sepThenDate r
    | _ => sepThenDate r

/-- `extract_due_date` of the source: primary range pattern first (its
capture group is the second date of the range), then the two `Vencimento`
fallbacks, else not found.  The guard models `if not texto: return None`
for the empty string. -/
def extract_due_date (texto : List Char) : Option (List Char) :=
  if texto.isEmpty then none
  else
    match searchAux primaryAt texto with
    | some (_, d2) => some d2
    | none =>
      match searchAux venc1At texto with
      | some d => some d
      | none => searchAux venc2At texto

/-! ### Voucher-number extractor (`extract_vale_number`, src/app.py 87-109)

Four patterns, tried in order, all with `re.IGNORECASE`; after a match the
captured group is stripped of non-digits and discarded when fewer than five
digits remain (falling through to the next pattern). -/

/-- Separator class `[\.:ºNº°\-\s]` of the first voucher pattern, under
ASCII case folding (so both `N` and `n` match). -/
def valeK1 (c : Char) : Bool :=
  asciiLower c = '.' || asciiLower c = ':' || asciiLower c = 'º' ||
    asciiLower c = 'n' || asciiLower c = '°' || asciiLower c = '-' || pySpace c

/-- Separator class `[\.:º°\-\s]` of the second voucher pattern. -/
def valeK2 (c : Char) : Bool :=
  c = '.' || c = ':' || c = 'º' || c = '°' || c = '-' || pySpace c

/-- Separator class `[:\.\-\s]` of the third voucher pattern. -/
def valeK3 (c : Char) : Bool :=
  c = ':' || c = '.' || c = '-' || pySpace c

/-- The final capture `(\d{5,})`: the maximal digit run at this position,
required to have length at least five.  It sits at the end of every
voucher pattern, so the greedy run is never shortened by backtracking. -/
def digitsGE5 (r : List Char) : Option (List Char) :=
  let d := takeRun pyDigit r
  if 5 ≤ d.length then some d else none

/-- Attempt of `Vale\s*[\.:ºNº°\-\s]*\s*(\d{5,})` at a fixed start position.
The separator runs are consumed greedily; this is equivalent to the
backtracking semantics because the digit class is disjoint from the
separator classes and `\s` is contained in them, so the start of the digit
run is invariant under any backtracking split of the separators. -/
def valeP1At (xs : List Char) : Option (List Char) :=
  match litCI (("Vale").toList) xs with
  | none => none
  | some r => digitsGE5 (dropRun pySpace (dropRun valeK1 (dropRun pySpace r)))

/-- Attempt of `V\.?\s*[\.:º°\-\s]*\s*(\d{5,})` at a fixed start position.
The optional period is itself a member of the following separator class,
so consuming it greedily is equivalent to backtracking over it. -/
def valeP2At (xs : List Char) : Option (List Char) :=
  match litCI (("V").toList) xs with
  | none => none
  | some r =>
    match r with
    | '.' :: r2 =>
      match digitsGE5 (dropRun pySpace (dropRun valeK2 (dropRun pySpace r2))) with
      | some d => some d
      | none => digitsGE5 (dropRun pySpace (dropRun valeK2 (dropRun pySpace r)))
    | _ => digitsGE5 (dropRun pySpace (dropRun valeK2 (dropRun pySpace r)))

/-- Attempt of `N[º°]\s*[:\.\-\s]*\s*(\d{5,})` at a fixed start position. -/
def valeP3At (xs : List Char) : Option (List Char) :=
  match litCI (("N").toList) xs with
  | none => none
  | some r =>
    match r with
    | [] => none
    | c :: r2 =>
      if c = 'º' || c = '°' then
        digitsGE5 (dropRun pySpace (dropRun valeK3 (dropRun pySpace r2)))
      else none

/-- Attempt of `VALE\s*(\d{5,})` at a fixed start position (identical to the
first pattern up to the separator class, kept for faithfulness). -/
def valeP4At (xs : List Char) : Option (List Char) :=
  match litCI (("VALE").toList) xs with
  | none => none
  | some r => digitsGE5 (dropRun pySpace r)

/-- Post-processing after a voucher pattern match: strip every non-digit
from the captured group (`re.sub`) and require at least five digits. -/
def postVale (g : List Char) : Option (List Char) :=
  let limpo := g.filter pyDigit
  if 5 ≤ limpo.length then some limpo else none

/-- `extract_vale_number` of the source. -/
def extract_vale_number (texto : List Char) : Option (List Char) :=
  if texto.isEmpty then none
  else
    match (searchAux valeP1At texto).bind postVale with
    | some n => some n
    | none =>
      match (searchAux valeP2At texto).bind postVale with
      | some n => some n
      | none =>
        match (searchAux valeP3At texto).bind postVale with
        | some n => some n
        | none => (searchAux valeP4At texto).bind postVale

/-! ### Supplier extractor (`extract_supplier`, src/app.py 111-131) -/

/-- The supplier capture class `[A-Za-zÀ-ÿ0-9\s\.\-&]` by its raw code-point
ranges (the `À-ÿ` range is the Latin-1 block U+00C0 to U+00FF). -/
def suppClass (c : Char) : Bool :=
  ('A' ≤ c && c ≤ 'Z') || ('a' ≤ c && c ≤ 'z') ||
    (0xC0 ≤ c.toNat && c.toNat ≤ 0xFF) ||
    pyDigit c || pySpace c || c = '.' || c = '-' || c = '&'

/-- The separator class `[\.:;\-]` after the supplier keyword. -/
def suppSep (c : Char) : Bool :=
  c = '.' || c = ':' || c = ';' || c = '-'

/-- Case-insensitive prefix test. -/
def startsWithCI (p : List Char) (xs : List Char) : Bool :=
  (litCI p xs).isSome

/-- The zero-width lookahead `(?=\s*(Vale|Data|Nº|$|\.))` of the first
supplier pattern: some prefix of whitespace may be skipped, after which one
of the keywords, a period, or the end of the string must follow (`$` also
matches just before a terminating newline). -/
def lookTest : List Char → Bool
  | [] => true
  | c :: r =>
    startsWithCI (("Vale").toList) (c :: r) ||
    startsWithCI (("Data").toList) (c :: r) ||
    startsWithCI (("Nº").toList) (c :: r) ||
    c = '.' ||
    (c = '\n' && r.isEmpty) ||
    (pySpace c && lookTest r)

/-- Attempt of
`Fornecedor\s*[\.:;\-]\s*([A-Za-zÀ-ÿ0-9\s\.\-&]+?)(?=\s*(Vale|Data|Nº|$|\.))`
at a fixed start position.  The greedy `\s*` before the capture backtracks
from the full whitespace run down to nothing (whitespace belongs to the
capture class, so shorter runs hand characters to the capture); for each
split the lazy `+?` tries capture lengths from one upward inside the
maximal class run until the lookahead succeeds. -/
def suppP1At (xs : List Char) : Option (List Char) :=
  match litCI (("Fornecedor").toList) xs with
  | none => none
  | some r0 =>
    match dropRun pySpace r0 with
    | [] => none
    | c :: r1 =>
      if suppSep c then
        tryDownAux (fun n =>
          let r2 := r1.drop n
          let maxr := runLen suppClass r2
          if maxr = 0 then none
          else
            tryUpAux (fun k => if lookTest (r2.drop k) then some (r2.take k) else none)
              1 (maxr - 1)) (runLen pySpace r1)
      else none

/-- Attempt of a greedy supplier pattern
`KEYWORD\s*[\.:;\-]\s*([A-Za-zÀ-ÿ0-9\s\.\-&]+)` at a fixed start position
(used for the `FORNECEDOR` and `Empresa` patterns).  The capture ends the
pattern, so it takes the maximal class run; the greedy `\s*` before it
backtracks from the full whitespace run down to nothing, which matters only
when no class character follows the whitespace (the capture then degenerates
to trailing whitespace, as in the Python engine). -/
def suppGreedyAt (kw : List Char) (xs : List Char) : Option (List Char) :=
  match litCI kw xs with
  | none => none
  | some r0 =>
    match dropRun pySpace r0 with
    | [] => none
    | c :: r1 =>
      if suppSep c then
        tryDownAux (fun n =>
          let g := takeRun suppClass (r1.drop n)
          if g.length = 0 then none else some g) (runLen pySpace r1)
      else none

def suppP2At (xs : List Char) : Option (List Char) :=
  suppGreedyAt (("FORNECEDOR").toList) xs

def suppP3At (xs : List Char) : Option (List Char) :=
  suppGreedyAt (("Empresa").toList) xs

/-- Python `str.strip()` restricted to the modelled whitespace set. -/
def pyStrip (xs : List Char) : List Char :=
  ((xs.dropWhile pySpace).reverse.dropWhile pySpace).reverse

/-- Head test for a run of two or more whitespace characters. -/
def twoSpaceHead : List Char → Bool
  | c :: c2 :: _ => pySpace c && pySpace c2
  | _ => false

/-- `re.split(r'\s{2,}|[-\|]', f)[0]`: the prefix before the leftmost
delimiter, where a delimiter is a run of at least two whitespace characters,
a hyphen, or a pipe. -/
def splitHead : List Char → List Char
  | [] => []
  | c :: r =>
    if twoSpaceHead (c :: r) then []
    else if c = '-' || c = '|' then []
    else c :: splitHead r

/-- The returned supplier text contains no truncation delimiter: no hyphen,
no pipe, and no two adjacent whitespace characters. -/
def noDelim : List Char → Bool
  | [] => true
  | c :: r => !(c = '-' || c = '|') && !(twoSpaceHead (c :: r)) && noDelim r

/-- Post-processing after a supplier pattern match: strip, truncate at the
first delimiter, and require more than three characters (falling through to
the next pattern otherwise). -/
def postSupp (g : List Char) : Option (List Char) :=
  let f := splitHead (pyStrip g)
  if 3 < f.length then some f else none

/-- `extract_supplier` of the source. -/
def extract_supplier (texto : List Char) : Option (List Char) :=
  if texto.isEmpty then none
  else
    match (searchAux suppP1At texto).bind postSupp with
    | some s => some s
    | none =>
      match (searchAux suppP2At texto).bind postSupp with
      | some s => some s
      | none => (searchAux suppP3At texto).bind postSupp

/-! ### Image normalizer (`preprocess_image`, src/app.py 55-82)

An image is a total intensity function indexed by channel, row and column,
with explicit geometry.  `channels = 3` corresponds to a BGR color array
(`len(shape) == 3` in the source); `channels = 1` to a grayscale array. -/

structure Img where
  h : Nat
  w : Nat
  channels : Nat
  px : Nat → Nat → Nat → Nat

/-- `cv2.resize(img, (nw, nh))` on a nonempty requested size: the output
geometry is exactly the request.  The interpolated intensities are floating
point and no claim depends on them, so pixels are modelled by
nearest-source sampling.  `cv2.resize` raises on an empty `dsize`; that
raising path is modelled at the call site (`preprocess_image_run`), which
invokes this function only with a nonzero width. -/
def resizeTo (img : Img) (nh nw : Nat) : Img :=
  { h := nh, w := nw, channels := img.channels,
    px := fun ch i j => img.px ch (i * img.h / nh) (j * img.w / nw) }

/-- `cv2.cvtColor(img, cv2.COLOR_BGR2GRAY)`: the OpenCV fixed-point luma
conversion with coefficients `R2Y = 4899`, `G2Y = 9617`, `B2Y = 1868` and a
14-bit shift (channel 0 is blue, channel 2 is red). -/
def cvtBGR2GRAY (img : Img) : Img :=
  { h := img.h, w := img.w, channels := 1,
    px := fun _ i j =>
      (4899 * img.px 2 i j + 9617 * img.px 1 i j + 1868 * img.px 0 i j + 8192) / 16384 }

/-- `cvRound(1.5 * v)` for a natural `v`: exact when `3 * v` is even,
otherwise the tie is rounded to the even neighbour. -/
def cvRound3Half (v : Nat) : Nat :=
  if v % 2 = 0 then 3 * v / 2
  else if (3 * v / 2) % 2 = 0 then 3 * v / 2 else 3 * v / 2 + 1

/-- `cv2.convertScaleAbs(img, alpha=1.5, beta=0)`: scale by 1.5, round, and
saturate to the 8-bit range. -/
def convertScaleAbs15 (img : Img) : Img :=
  { img with px := fun ch i j => min 255 (cvRound3Half (img.px ch i j)) }

/-- Clamp a possibly negative index into `[0, n-1]` (replicated border). -/
def clampIdx (n : Nat) (i : Int) : Nat :=
  (min (max i 0) ((n : Int) - 1)).toNat

/-- Insertion into a sorted list of intensities. -/
def insertSorted (x : Nat) : List Nat → List Nat
  | [] => [x]
  | y :: r => if x ≤ y then x :: y :: r else y :: insertSorted x r

/-- Insertion sort of intensities. -/
def sortNat (l : List Nat) : List Nat :=
  l.foldr insertSorted []

/-- The median of a nine-element neighbourhood list. -/
def median9 (l : List Nat) : Nat :=
  (sortNat l).getD 4 0

/-- `cv2.medianBlur(img, 3)`: 3x3 median with replicated border. -/
def medianBlur3 (img : Img) : Img :=
  { img with px := fun ch i j =>
      let g := fun (di dj : Int) =>
        img.px ch (clampIdx img.h ((i : Int) + di)) (clampIdx img.w ((j : Int) + dj))
      median9 [g (-1) (-1), g (-1) 0, g (-1) 1,
               g 0 (-1), g 0 0, g 0 1,
               g 1 (-1), g 1 0, g 1 1] }

/-- Number of pixels of channel 0 with intensity `v`. -/
def histCount (img : Img) (v : Nat) : Nat :=
  ((List.range img.h).map (fun i =>
    ((List.range img.w).filter (fun j => img.px 0 i j = v)).length)).sum

/-- State of the Otsu scan: class-one probability mass, class-one mean,
best between-class variance so far and its threshold. -/
structure OtsuState where
  q1 : ℚ
  mu1 : ℚ
  maxSigma : ℚ
  maxVal : Nat

/-- The OpenCV Otsu threshold (`getThreshVal_Otsu_8u`) transcribed over
exact rationals: scan all 256 candidate thresholds, tracking the first
maximiser of the between-class variance.  The `FLT_EPSILON` degeneracy
guards become exact zero tests. -/
def otsuThreshold (img : Img) : Nat :=
  let total : Nat := img.h * img.w
  let scale : ℚ := if total = 0 then 0 else 1 / (total : ℚ)
  let muAll : ℚ :=
    scale * (((List.range 256).map (fun i => i * histCount img i)).sum : ℚ)
  let st := (List.range 256).foldl
    (fun (st : OtsuState) (i : Nat) =>
      let pi : ℚ := (histCount img i : ℚ) * scale
      let mu1a := st.mu1 * st.q1
      let q1 := st.q1 + pi
      let q2 := 1 - q1
      if q1 ≤ 0 ∨ q2 ≤ 0 then
        { st with q1 := q1, mu1 := mu1a }
      else
        let mu1 := (mu1a + (i : ℚ) * pi) / q1
        let mu2 := (muAll - q1 * mu1) / q2
        let sigma := q1 * q2 * (mu1 - mu2) * (mu1 - mu2)
        if st.maxSigma < sigma then
          { q1 := q1, mu1 := mu1, maxSigma := sigma, maxVal := i }
        else
          { st with q1 := q1, mu1 := mu1 })
    { q1 := 0, mu1 := 0, maxSigma := 0, maxVal := 0 }
  st.maxVal

/-- `cv2.threshold(img, 0, 255, THRESH_BINARY + THRESH_OTSU)`: every pixel
strictly above the Otsu threshold becomes 255, every other pixel 0. -/
def otsuBinarize (img : Img) : Img :=
  let t := otsuThreshold img
  { img with px := fun ch i j => if t < img.px ch i j then 255 else 0 }

/-- Fuel-based floor of the base-two logarithm (structurally recursive so
that it evaluates inside the kernel; the fuel `n` itself always suffices). -/
def natLog2Aux : Nat → Nat → Nat
  | 0, _ => 0
  | fuel + 1, n => if 2 ≤ n then natLog2Aux fuel (n / 2) + 1 else 0

/-- Largest `k` with `2 ^ k ≤ n` (and 0 for `n ≤ 1`). -/
def natLog2 (n : Nat) : Nat := natLog2Aux n n

/-- Largest integer `e` with `2 ^ e ≤ a / b`, for positive naturals,
computed from the bit lengths of numerator and denominator with an exact
adjustment. -/
def floorLog2Frac (a b : Nat) : Int :=
  let e0 : Int := (natLog2 a : Int) - (natLog2 b : Int)
  let test : Int → Bool := fun e =>
    if 0 ≤ e then decide (b * 2 ^ e.toNat ≤ a) else decide (b ≤ a * 2 ^ (-e).toNat)
  if test (e0 + 1) then e0 + 1 else if test e0 then e0 else e0 - 1

/-- Round `A / B` to the nearest integer, ties to even. -/
def rndHalfEven (A B : Nat) : Nat :=
  let q := A / B
  let r := A % B
  if 2 * r < B then q else if B < 2 * r then q + 1 else if q % 2 = 0 then q else q + 1

/-- Rounding the positive fraction `a / b` to the nearest IEEE binary64
value (53-bit significand, ties to even; normal range only, which covers
every value arising from the resize computation).  The result is the pair
(mantissa, exponent) with value `mantissa * 2 ^ exponent`.  This is the
exact semantics of the double arithmetic of the source. -/
def fl53Frac (a b : Nat) : Nat × Int :=
  if a = 0 then (0, 0)
  else
    let ex : Int := floorLog2Frac a b - 52
    if 0 ≤ ex then (rndHalfEven a (b * 2 ^ ex.toNat), ex)
    else (rndHalfEven (a * 2 ^ (-ex).toNat) b, ex)

/-- `nova_largura = int(largura * escala)` of the source with
`escala = 2000 / h`: the division and the multiplication are binary64
floating-point operations (the integer operands are exactly representable),
followed by truncation toward zero.  This can fall below the exact floor of
`w * 2000 / h` (for example `pyResizeWidth 98 98000 = 1` while the exact
floor is 2), and it can be zero for narrow tall images (for example
`pyResizeWidth 1 2001 = 0`). -/
def pyResizeWidth (w h : Nat) : Nat :=
  let s := fl53Frac 2000 h
  let p :=
    if 0 ≤ s.2 then fl53Frac (w * s.1 * 2 ^ s.2.toNat) 1
    else fl53Frac (w * s.1) (2 ^ (-s.2).toNat)
  if 0 ≤ p.2 then p.1 * 2 ^ p.2.toNat
  else p.1 / 2 ^ (-p.2).toNat

/-- The error raised by the imaging library when `cv2.resize` is asked for
an empty output size (the computed `dsize` width is zero and the default
`fx` scale is zero). -/
inductive CvErr
  | resizeEmpty

/-- Steps 2 to 5 of the normalizer (grayscale conversion when the input has
three channels, contrast stretch, median denoise, Otsu binarization),
shared by the resized and the unresized branch. -/
def normalizeTail (img : Img) : Img :=
  otsuBinarize (medianBlur3 (convertScaleAbs15
    (if img.channels = 3 then cvtBGR2GRAY img else img)))

/-- `preprocess_image` of the source including its raising path: `None`
propagates; an image taller than 2000 px is downscaled to height 2000 and
width `int(w * (2000 / h))` — when that width is zero, `cv2.resize` raises
`cv2.error` and the function produces no output (the call site at line 337
has no surrounding try, so the exception aborts the batch loop). -/
def preprocess_image_run (input : Option Img) : Except CvErr (Option Img) :=
  match input with
  | none => Except.ok none
  | some img0 =>
    if 2000 < img0.h then
      let nw := pyResizeWidth img0.w img0.h
      if nw = 0 then Except.error CvErr.resizeEmpty
      else Except.ok (some (normalizeTail (resizeTo img0 2000 nw)))
    else Except.ok (some (normalizeTail img0))

/-- The value of the normalizer on the non-raising path (`none` both for a
null input, as in the source, and on the raising inputs, which the guarded
batch loop never passes to the per-item record construction). -/
def preprocess_image (input : Option Img) : Option Img :=
  match preprocess_image_run input with
  | Except.ok r => r
  | Except.error _ => none

/-! ### Record assembler (`processar_imagens`, src/app.py 297-403)

The per-image loop is embedded as a fold over the successfully decoded
items.  The external OCR engine is an oracle from the selected bitmap to
either recognized text or a raised error message. -/

/-- One successfully decoded input item of the batch. -/
structure Item where
  nome : List Char
  tipo : List Char
  imagem : Option Img

/-- One row of the consolidated result table. -/
structure Record where
  arquivo : List Char
  origem : List Char
  numeroVale : List Char
  fornecedor : List Char
  vencimento : List Char

/-- The argument of `pytesseract.image_to_string`:
`imagem_processada if imagem_processada else imagem`.  A present processed
image (left summand) is preferred; otherwise the original (right summand)
is passed through. -/
def selectOcrInput (processada : Option Img) (original : Option Img) :
    Option (Sum Img Img) :=
  match processada with
  | some p => some (Sum.inl p)
  | none => original.map Sum.inr

/-- Python `value or default` for string-valued fields: `None` and the
empty string are falsy. -/
def pyOr (v : Option (List Char)) (d : List Char) : List Char :=
  match v with
  | some s => if s.isEmpty then d else s
  | none => d

/-- The caller-configurable filter
`if numero_vale and len(numero_vale) < minimo_digitos: numero_vale = None`
(the truthiness test keeps `None` and the empty string unchanged). -/
def applyMinDigits (minDigits : Nat) (v : Option (List Char)) : Option (List Char) :=
  match v with
  | none => none
  | some n => if 0 < n.length ∧ n.length < minDigits then none else some n

/-- The not-found sentinel rendered into the table. -/
def notFound : List Char := ("Não encontrado").toList

/-- The error marker of the voucher column of an error record. -/
def erroMark : List Char := ("ERRO").toList

/-- The body of one iteration of the processing loop: preprocess, run the
OCR oracle on the selected bitmap, extract the three fields and apply the
minimum-digit filter; if the oracle raises, emit the error record with the
truncated message instead. -/
def processItem (ocr : Option (Sum Img Img) → Except (List Char) (List Char))
    (minDigits : Nat) (it : Item) : Record :=
  let processada := preprocess_image it.imagem
  match ocr (selectOcrInput processada it.imagem) with
  | Except.ok texto =>
    let numeroVale := applyMinDigits minDigits (extract_vale_number texto)
    { arquivo := it.nome, origem := it.tipo,
      numeroVale := pyOr numeroVale notFound,
      fornecedor := pyOr (extract_supplier texto) notFound,
      vencimento := pyOr (extract_due_date texto) notFound }
  | Except.error e =>
    { arquivo := it.nome, origem := it.tipo,
      numeroVale := erroMark,
      fornecedor := ("Erro: ").toList ++ e.take 50,
      vencimento := [] }

/-- One iteration of the batch loop: if a previous iteration already raised,
the exception is propagating and nothing further runs; otherwise the
normalization call of line 337 runs first, outside the per-item try — if it
raises, the loop aborts; if it returns, the item contributes exactly one
Record (success or ERRO) appended to the accumulator. -/
def processar_step (ocr : Option (Sum Img Img) → Except (List Char) (List Char))
    (minDigits : Nat) (acc : Except CvErr (List Record)) (it : Item) :
    Except CvErr (List Record) :=
  match acc with
  | Except.error e => Except.error e
  | Except.ok rs =>
    match preprocess_image_run it.imagem with
    | Except.error e => Except.error e
    | Except.ok _ => Except.ok (rs ++ [processItem ocr minDigits it])

/-- The accumulation of `resultados` over the batch, one append per item in
input order, aborted by an uncaught resize error. -/
def processar_imagens (ocr : Option (Sum Img Img) → Except (List Char) (List Char))
    (minDigits : Nat) (items : List Item) : Except CvErr (List Record) :=
  items.foldl (processar_step ocr minDigits) (Except.ok [])

/-! ### Concrete inputs used by witnesses and counterexamples -/

/-- A 1x1 all-black grayscale image. -/
def zeroImg : Img :=
  { h := 1, w := 1, channels := 1, px := fun _ _ _ => 0 }

/-- A 4000x3 grayscale image (taller than the 2000-pixel resize bound). -/
def img4000 : Img :=
  { h := 4000, w := 3, channels := 1, px := fun _ _ _ => 0 }

/-- A concrete decoded batch item. -/
def item1 : Item :=
  { nome := ("a.png").toList, tipo := ("upload").toList, imagem := some zeroImg }

/-- A one-item batch built from the concrete item. -/
def items1 : List Item := [item1]

/-- A 2001x1 grayscale image: taller than 2000 px and so narrow that the
binary64 resize width `int(1 * (2000/2001))` truncates to zero. -/
def imgTall : Img :=
  { h := 2001, w := 1, channels := 1, px := fun _ _ _ => 0 }

/-- A decoded batch item holding the width-collapsing image. -/
def itemTall : Item :=
  { nome := ("tall.png").toList, tipo := ("upload").toList, imagem := some imgTall }

/-- A two-item batch whose first item makes the resize raise. -/
def itemsAbort : List Item := [itemTall, item1]

/-- An OCR oracle that always raises. -/
def ocrBoom : Option (Sum Img Img) → Except (List Char) (List Char) :=
  fun _ => Except.error (("boom").toList)

/-- An OCR oracle that always recognizes a fixed voucher text. -/
def ocrVale8 : Option (Sum Img Img) → Except (List Char) (List Char) :=
  fun _ => Except.ok (("Vale 12345678").toList)

/-! ### Claim-side definitions (stated from the words of the spec, for
comparison with the embedded source) -/

/-- Rounding half to even of the ratio `a / b`, the `round` of the spec
sentence `width recomputed as round(width * 2000/height)`. -/
def specRoundHalfEven (a b : Nat) : Nat :=
  let q := a / b
  let r := a % b
  if 2 * r < b then q else if b < 2 * r then q + 1 else if q % 2 = 0 then q else q + 1

/-- The property claimed by C5 at a given input image: output height exactly
2000 and output width the rounded proportional width. -/
def claimC5at (inp : Img) : Prop :=
  ∃ g, preprocess_image (some inp) = some g ∧ g.h = 2000 ∧
    g.w = specRoundHalfEven (inp.w * 2000) inp.h

/-- Exactly two distinct intensity levels both attained inside the image
bounds (the reading of `contains exactly two distinct intensity levels`). -/
def twoLevelsExact (g : Img) : Prop :=
  ∃ v1 v2, v1 ≠ v2 ∧
    (∀ i j, i < g.h → j < g.w → g.px 0 i j = v1 ∨ g.px 0 i j = v2) ∧
    (∃ i j, i < g.h ∧ j < g.w ∧ g.px 0 i j = v1) ∧
    (∃ i j, i < g.h ∧ j < g.w ∧ g.px 0 i j = v2)

/-- The property claimed by C4 at a given input image. -/
def claimC4at (inp : Img) : Prop :=
  ∃ g, preprocess_image (some inp) = some g ∧ g.h ≤ 2000 ∧ g.channels = 1 ∧
    twoLevelsExact g

/-- Formalisation of the words of claim C6: the date that directly follows
the keyword `Vencimento` or `Venc.` (up to whitespace), found anywhere in
the text, with no separator required between keyword and date. -/
def claimC6directDate (t : List Char) : Option (List Char) :=
  searchAux (fun xs =>
    match litM (("Vencimento").toList) xs with
    | some r => (dateAt (dropRun pySpace r)).map (fun p => p.1)
    | none =>
      match litM (("Venc.").toList) xs with
      | some r => (dateAt (dropRun pySpace r)).map (fun p => p.1)
      | none => none) t

/-! ### Lemmas about the text matchers -/

theorem runLen_eq (p : Char → Bool) (xs : List Char) :
    runLen p xs = (xs.takeWhile p).length := by
  induction xs with
  | nil => rfl
  | cons c r ih =>
    by_cases h : p c
    · simp [runLen, List.takeWhile_cons, h, ih]
    · simp [runLen, List.takeWhile_cons, h]

theorem takeRun_eq_takeWhile (p : Char → Bool) (xs : List Char) :
    takeRun p xs = xs.takeWhile p := by
  induction xs with
  | nil => rfl
  | cons c r ih =>
    by_cases h : p c
    · simp [takeRun, runLen, h, List.takeWhile_cons, List.take_succ_cons] at ih ⊢
      exact ih
    · simp [takeRun, runLen, h, List.takeWhile_cons]

theorem dropRun_eq_dropWhile (p : Char → Bool) (xs : List Char) :
    dropRun p xs = xs.dropWhile p := by
  induction xs with
  | nil => rfl
  | cons c r ih =>
    by_cases h : p c
    · simp [dropRun, runLen, h, List.dropWhile_cons] at ih ⊢
      exact ih
    · simp [dropRun, runLen, h, List.dropWhile_cons]

theorem mem_takeWhile_pred {p : Char → Bool} {xs : List Char} {c : Char}
    (h : c ∈ xs.takeWhile p) : p c = true := by
  induction xs with
  | nil => simp [List.takeWhile] at h
  | cons a r ih =>
    rw [List.takeWhile_cons] at h
    by_cases ha : p a
    · simp [ha] at h
      rcases h with h | h
      · exact h ▸ ha
      · exact ih h
    · simp [ha] at h

theorem takeWhile_all_append {p : Char → Bool} {l m : List Char} {c : Char}
    (hl : ∀ x ∈ l, p x = true) (hc : p c = false) :
    (l ++ c :: m).takeWhile p = l ∧ (l ++ c :: m).dropWhile p = c :: m := by
  induction l with
  | nil => simp [List.takeWhile_cons, List.dropWhile_cons, hc]
  | cons a l ih =>
    have ha : p a = true := hl a (by simp)
    have ih2 := ih (fun x hx => hl x (by simp [hx]))
    simp [List.takeWhile_cons, List.dropWhile_cons, ha, ih2.1, ih2.2]

theorem take_le_run {p : Char → Bool} {xs : List Char} {k : Nat}
    (h : k ≤ runLen p xs) :
    (xs.take k).length = k ∧ ∀ c ∈ xs.take k, p c = true := by
  induction xs generalizing k with
  | nil => simp [runLen] at h; simp [h]
  | cons a r ih =>
    cases k with
    | zero => simp
    | succ k =>
      by_cases ha : p a
      · simp [runLen, ha] at h
        have := ih h
        refine ⟨by simp [this.1], ?_⟩
        intro c hc
        simp [List.take_succ_cons] at hc
        rcases hc with rfl | hc
        · exact ha
        · exact this.2 c hc
      · simp [runLen, ha] at h

theorem searchAux_some {m : List Char → Option α} {xs : List Char} {a : α}
    (h : searchAux m xs = some a) : ∃ ys, m ys = some a := by
  induction xs with
  | nil => exact ⟨[], h⟩
  | cons c r ih =>
    unfold searchAux at h
    revert h
    cases hm : m (c :: r) with
    | some b => intro h; exact ⟨c :: r, by simp at h; simp [hm, h]⟩
    | none => intro h; exact ih h

theorem dateAt_shape {xs d rest : List Char} (h : dateAt xs = some (d, rest)) :
    isDateShape d = true := by
  unfold dateAt at h
  simp only [] at h
  split at h
  case isFalse => simp at h
  case isTrue h1 =>
    split at h
    case h_2 => simp at h
    case h_1 ys hd1 =>
      split at h
      case isFalse => simp at h
      case isTrue h2 =>
        split at h
        case h_2 => simp at h
        case h_1 zs hd2 =>
          split at h
          case isFalse => simp at h
          case isTrue h4 =>
            simp only [Option.some.injEq, Prod.mk.injEq] at h
            obtain ⟨hd, -⟩ := h
            subst hd
            have hsl : pyDigit '/' = false := by decide
            have hA : ∀ x ∈ takeRun pyDigit xs, pyDigit x = true := by
              rw [takeRun_eq_takeWhile]; exact fun x hx => mem_takeWhile_pred hx
            have hB : ∀ x ∈ takeRun pyDigit ys, pyDigit x = true := by
              rw [takeRun_eq_takeWhile]; exact fun x hx => mem_takeWhile_pred hx
            have hY := take_le_run h4
            have tw1 := takeWhile_all_append (p := pyDigit)
              (m := takeRun pyDigit ys ++ '/' :: zs.take 4) hA hsl
            have tw2 := takeWhile_all_append (p := pyDigit) (m := zs.take 4) hB hsl
            have hAlen : (takeRun pyDigit xs).length = runLen pyDigit xs := by
              rw [takeRun_eq_takeWhile, runLen_eq]
            have hBlen : (takeRun pyDigit ys).length = runLen pyDigit ys := by
              rw [takeRun_eq_takeWhile, runLen_eq]
            unfold isDateShape
            simp only [tw1.1, tw1.2, tw2.1, tw2.2, hAlen, hBlen, h1, Bool.true_and]
            simp only [hY.1, List.all_eq_true]
            simp only [h2, Bool.true_and]
            simp
            exact hY.2

theorem postVale_spec {g n : List Char} (h : postVale g = some n) :
    n.all pyDigit = true ∧ 5 ≤ n.length := by
  simp only [postVale] at h
  split at h
  case isTrue h5 =>
    simp only [Option.some.injEq] at h
    subst h
    refine ⟨?_, h5⟩
    simp only [List.all_eq_true]
    exact fun x hx => (List.mem_filter.mp hx).2
  case isFalse => simp at h

theorem bindPostVale_spec {s : Option (List Char)} {n : List Char}
    (h : s.bind postVale = some n) : n.all pyDigit = true ∧ 5 ≤ n.length := by
  rcases Option.bind_eq_some.mp h with ⟨g, -, hp⟩
  exact postVale_spec hp

theorem extract_vale_spec {t n : List Char} (h : extract_vale_number t = some n) :
    n.all pyDigit = true ∧ 5 ≤ n.length := by
  unfold extract_vale_number at h
  split at h
  case isTrue => simp at h
  case isFalse =>
    split at h
    case h_1 x heq =>
      simp only [Option.some.injEq] at h
      exact h ▸ bindPostVale_spec heq
    case h_2 =>
      split at h
      case h_1 x heq =>
        simp only [Option.some.injEq] at h
        exact h ▸ bindPostVale_spec heq
      case h_2 =>
        split at h
        case h_1 x heq =>
          simp only [Option.some.injEq] at h
          exact h ▸ bindPostVale_spec heq
        case h_2 => exact bindPostVale_spec h

theorem splitHead_head {f t : List Char} {c : Char} (h : splitHead f = c :: t) :
    ∃ r, f = c :: r := by
  cases f with
  | nil => simp [splitHead] at h
  | cons a r =>
    refine ⟨r, ?_⟩
    unfold splitHead at h
    split at h
    · simp at h
    · split at h
      · simp at h
      · simp only [List.cons.injEq] at h
        rw [h.1]

theorem noDelim_splitHead (f : List Char) : noDelim (splitHead f) = true := by
  induction f with
  | nil => rfl
  | cons c r ih =>
    unfold splitHead
    split
    · rfl
    · split
      · rfl
      · next h1 h2 =>
        have hnd : twoSpaceHead (c :: splitHead r) = false := by
          cases hs : splitHead r with
          | nil => rfl
          | cons c2 t =>
            obtain ⟨r2, hr2⟩ := splitHead_head hs
            subst hr2
            simp only [twoSpaceHead] at h1 ⊢
            exact Bool.eq_false_iff.mpr h1
        simp only [noDelim, hnd, ih, Bool.not_false, Bool.and_true]
        simpa using h2

theorem postSupp_spec {g s : List Char} (h : postSupp g = some s) :
    noDelim s = true ∧ 3 < s.length ∧ s = splitHead (pyStrip g) := by
  simp only [postSupp] at h
  split at h
  case isTrue h3 =>
    simp only [Option.some.injEq] at h
    subst h
    exact ⟨noDelim_splitHead _, h3, rfl⟩
  case isFalse => simp at h

theorem extract_supplier_spec {t s : List Char} (h : extract_supplier t = some s) :
    noDelim s = true ∧ 3 < s.length ∧
      ∃ g, (searchAux suppP1At t = some g ∨ searchAux suppP2At t = some g ∨
            searchAux suppP3At t = some g) ∧ s = splitHead (pyStrip g) := by
  unfold extract_supplier at h
  split at h
  case isTrue => simp at h
  case isFalse =>
    split at h
    case h_1 x heq =>
      simp only [Option.some.injEq] at h
      subst h
      rcases Option.bind_eq_some.mp heq with ⟨g, hg, hp⟩
      obtain ⟨a, b, c⟩ := postSupp_spec hp
      exact ⟨a, b, g, Or.inl hg, c⟩
    case h_2 =>
      split at h
      case h_1 x heq =>
        simp only [Option.some.injEq] at h
        subst h
        rcases Option.bind_eq_some.mp heq with ⟨g, hg, hp⟩
        obtain ⟨a, b, c⟩ := postSupp_spec hp
        exact ⟨a, b, g, Or.inr (Or.inl hg), c⟩
      case h_2 =>
        rcases Option.bind_eq_some.mp h with ⟨g, hg, hp⟩
        obtain ⟨a, b, c⟩ := postSupp_spec hp
        exact ⟨a, b, g, Or.inr (Or.inr hg), c⟩

theorem primaryAt_shape {ys d1 d2 : List Char} (h : primaryAt ys = some (d1, d2)) :
    isDateShape d1 = true ∧ isDateShape d2 = true := by
  unfold primaryAt at h
  split at h
  · simp at h
  · split at h
    · simp at h
    · split at h
      case isFalse => simp at h
      case isTrue =>
        split at h
        · simp at h
        · next d1x r2 hdate1 =>
          split at h
          · simp at h
          · split at h
            case isFalse => simp at h
            case isTrue =>
              split at h
              · simp at h
              · next d2x rest hdate2 =>
                simp only [Option.some.injEq, Prod.mk.injEq] at h
                obtain ⟨rfl, rfl⟩ := h
                exact ⟨dateAt_shape hdate1, dateAt_shape hdate2⟩

theorem sepThenDate_shape {r d : List Char} (h : sepThenDate r = some d) :
    isDateShape d = true := by
  unfold sepThenDate at h
  split at h
  · simp at h
  · split at h
    · obtain ⟨⟨dd, rest⟩, hd, he⟩ := Option.map_eq_some'.mp h
      exact he ▸ dateAt_shape hd
    · simp at h

theorem venc1At_shape {ys d : List Char} (h : venc1At ys = some d) :
    isDateShape d = true := by
  unfold venc1At at h
  split at h
  · simp at h
  · exact sepThenDate_shape h

theorem venc2At_shape {ys d : List Char} (h : venc2At ys = some d) :
    isDateShape d = true := by
  unfold venc2At at h
  split at h
  · simp at h
  · split at h
    · split at h
      · next dd hd2 =>
        simp only [Option.some.injEq] at h
        exact h ▸ sepThenDate_shape hd2
      · exact sepThenDate_shape h
    · exact sepThenDate_shape h

theorem processar_step_err (ocr : Option (Sum Img Img) → Except (List Char) (List Char))
    (m : Nat) (e : CvErr) (it : Item) :
    processar_step ocr m (Except.error e) it = Except.error e := rfl

theorem processar_fold_err_acc (ocr : Option (Sum Img Img) → Except (List Char) (List Char))
    (m : Nat) (e : CvErr) :
    ∀ items : List Item,
      items.foldl (processar_step ocr m) (Except.error e) = Except.error e := by
  intro items
  induction items with
  | nil => rfl
  | cons a r ih =>
    rw [List.foldl_cons, processar_step_err]
    exact ih

theorem processar_fold_ok (ocr : Option (Sum Img Img) → Except (List Char) (List Char))
    (m : Nat) :
    ∀ items : List Item,
      (∀ it ∈ items, preprocess_image_run it.imagem ≠ Except.error CvErr.resizeEmpty) →
      ∀ acc : List Record,
        items.foldl (processar_step ocr m) (Except.ok acc)
          = Except.ok (acc ++ items.map (processItem ocr m)) := by
  intro items
  induction items with
  | nil => intro _ acc; simp
  | cons a r ih =>
    intro h acc
    rw [List.foldl_cons]
    have hstep : processar_step ocr m (Except.ok acc) a
        = Except.ok (acc ++ [processItem ocr m a]) := by
      unfold processar_step
      cases hrun : preprocess_image_run a.imagem with
      | error e => cases e; exact absurd hrun (h a (by simp))
      | ok v => rfl
    rw [hstep, ih (fun it hit => h it (List.mem_cons_of_mem a hit)) (acc ++ [processItem ocr m a])]
    simp

theorem processar_fold_mem_err
    (ocr : Option (Sum Img Img) → Except (List Char) (List Char)) (m : Nat) :
    ∀ (items : List Item) (it : Item), it ∈ items →
      preprocess_image_run it.imagem = Except.error CvErr.resizeEmpty →
      ∀ acc : Except CvErr (List Record),
        items.foldl (processar_step ocr m) acc = Except.error CvErr.resizeEmpty := by
  intro items
  induction items with
  | nil => intro it hit; simp at hit
  | cons a r ih =>
    intro it hit hrun acc
    rw [List.foldl_cons]
    rcases List.mem_cons.mp hit with rfl | hmem
    · cases acc with
      | error e =>
        cases e
        rw [processar_step_err]
        exact processar_fold_err_acc ocr m CvErr.resizeEmpty r
      | ok rs =>
        have hstep : processar_step ocr m (Except.ok rs) it
            = Except.error CvErr.resizeEmpty := by
          unfold processar_step
          rw [hrun]
        rw [hstep]
        exact processar_fold_err_acc ocr m CvErr.resizeEmpty r
    · cases hstep : processar_step ocr m acc a with
      | error e =>
        cases e
        exact processar_fold_err_acc ocr m CvErr.resizeEmpty r
      | ok rs => exact ih it hmem hrun (Except.ok rs)

theorem otsuBinarize_h (img : Img) : (otsuBinarize img).h = img.h := rfl

theorem otsuBinarize_w (img : Img) : (otsuBinarize img).w = img.w := rfl

theorem otsuBinarize_channels (img : Img) : (otsuBinarize img).channels = img.channels := rfl

theorem otsuBinarize_px (img : Img) (ch i j : Nat) :
    (otsuBinarize img).px ch i j =
      if otsuThreshold img < img.px ch i j then 255 else 0 := rfl

theorem medianBlur3_h (img : Img) : (medianBlur3 img).h = img.h := rfl

theorem medianBlur3_w (img : Img) : (medianBlur3 img).w = img.w := rfl

theorem medianBlur3_channels (img : Img) : (medianBlur3 img).channels = img.channels := rfl

theorem convertScaleAbs15_h (img : Img) : (convertScaleAbs15 img).h = img.h := rfl

theorem convertScaleAbs15_w (img : Img) : (convertScaleAbs15 img).w = img.w := rfl

theorem convertScaleAbs15_channels (img : Img) :
    (convertScaleAbs15 img).channels = img.channels := rfl

theorem cvtBGR2GRAY_h (img : Img) : (cvtBGR2GRAY img).h = img.h := rfl

theorem cvtBGR2GRAY_w (img : Img) : (cvtBGR2GRAY img).w = img.w := rfl

theorem cvtBGR2GRAY_channels (img : Img) : (cvtBGR2GRAY img).channels = 1 := rfl

theorem resizeTo_h (img : Img) (nh nw : Nat) : (resizeTo img nh nw).h = nh := rfl

theorem resizeTo_w (img : Img) (nh nw : Nat) : (resizeTo img nh nw).w = nw := rfl

theorem resizeTo_channels (img : Img) (nh nw : Nat) :
    (resizeTo img nh nw).channels = img.channels := rfl

theorem ite_or_levels (c : Prop) [Decidable c] :
    (if c then (255 : Nat) else 0) = 0 ∨ (if c then (255 : Nat) else 0) = 255 := by
  by_cases h : c <;> simp [h]

theorem normalizeTail_h (img : Img) : (normalizeTail img).h = img.h := by
  unfold normalizeTail
  rw [otsuBinarize_h, medianBlur3_h, convertScaleAbs15_h, apply_ite Img.h,
    cvtBGR2GRAY_h, ite_self]

theorem normalizeTail_w (img : Img) : (normalizeTail img).w = img.w := by
  unfold normalizeTail
  rw [otsuBinarize_w, medianBlur3_w, convertScaleAbs15_w, apply_ite Img.w,
    cvtBGR2GRAY_w, ite_self]

theorem normalizeTail_channels (img : Img) :
    (normalizeTail img).channels = (if img.channels = 3 then 1 else img.channels) := by
  unfold normalizeTail
  rw [otsuBinarize_channels, medianBlur3_channels, convertScaleAbs15_channels,
    apply_ite Img.channels, cvtBGR2GRAY_channels]

theorem normalizeTail_px (img : Img) (ch i j : Nat) :
    (normalizeTail img).px ch i j = 0 ∨ (normalizeTail img).px ch i j = 255 := by
  unfold normalizeTail
  rw [otsuBinarize_px]
  exact ite_or_levels _

theorem preprocess_run_resize (img : Img) (hlt : 2000 < img.h)
    (hnw : pyResizeWidth img.w img.h ≠ 0) :
    preprocess_image_run (some img) =
      Except.ok (some (normalizeTail (resizeTo img 2000 (pyResizeWidth img.w img.h)))) := by
  simp only [preprocess_image_run]
  rw [if_pos hlt, if_neg hnw]

theorem preprocess_run_noresize (img : Img) (hle : ¬ 2000 < img.h) :
    preprocess_image_run (some img) = Except.ok (some (normalizeTail img)) := by
  simp only [preprocess_image_run]
  rw [if_neg hle]

theorem preprocess_run_raise (img : Img) (hlt : 2000 < img.h)
    (hnw : pyResizeWidth img.w img.h = 0) :
    preprocess_image_run (some img) = Except.error CvErr.resizeEmpty := by
  simp only [preprocess_image_run]
  rw [if_pos hlt, if_pos hnw]

theorem preprocess_image_of_run {input : Option Img} {r : Option Img}
    (h : preprocess_image_run input = Except.ok r) : preprocess_image input = r := by
  unfold preprocess_image
  rw [h]

theorem preprocess_run_dims (img : Img)
    (h0 : ¬ (2000 < img.h ∧ pyResizeWidth img.w img.h = 0)) :
    ∃ g, preprocess_image_run (some img) = Except.ok (some g) ∧
      g.h = (if 2000 < img.h then 2000 else img.h) ∧
      g.w = (if 2000 < img.h then pyResizeWidth img.w img.h else img.w) ∧
      g.channels = (if img.channels = 3 then 1 else img.channels) ∧
      (∀ ch i j, g.px ch i j = 0 ∨ g.px ch i j = 255) := by
  by_cases hlt : 2000 < img.h
  · have hnw : pyResizeWidth img.w img.h ≠ 0 := fun hz => h0 ⟨hlt, hz⟩
    refine ⟨_, preprocess_run_resize img hlt hnw, ?_, ?_, ?_,
      fun ch i j => normalizeTail_px _ ch i j⟩
    · rw [normalizeTail_h, resizeTo_h, if_pos hlt]
    · rw [normalizeTail_w, resizeTo_w, if_pos hlt]
    · rw [normalizeTail_channels, resizeTo_channels]
  · refine ⟨_, preprocess_run_noresize img hlt, ?_, ?_, ?_,
      fun ch i j => normalizeTail_px _ ch i j⟩
    · rw [normalizeTail_h, if_neg hlt]
    · rw [normalizeTail_w, if_neg hlt]
    · rw [normalizeTail_channels]

theorem preprocess_zero_px :
    ∃ g, preprocess_image (some zeroImg) = some g ∧ ∀ ch i j, g.px ch i j = 0 := by
  refine ⟨normalizeTail zeroImg, rfl, ?_⟩
  intro ch i j
  unfold normalizeTail
  rw [otsuBinarize_px]
  have hmed : (medianBlur3 (convertScaleAbs15
      (if zeroImg.channels = 3 then cvtBGR2GRAY zeroImg else zeroImg))).px ch i j = 0 := by
    simp only [zeroImg, medianBlur3, convertScaleAbs15, cvtBGR2GRAY]
    norm_num
    simp [median9, sortNat, insertSorted, cvRound3Half]
  rw [hmed]
  simp

/-! ### Claim theorems -/

/-- Claim C3 (amended): every decoded input image on which the normalization
call returns (its resize does not raise) yields exactly one Record, in
input order (the batch result is the map of the per-item processing); when
the OCR stage raises for one item, its Record carries the ERRO marker in
the voucher field and the truncated error message in the supplier field,
and the remaining items are unaffected; but when the resize of one item
raises (its binary64 width truncates to zero), the exception propagates
outside the per-item try and the whole batch aborts with no Record for
that item or any later one. -/
theorem c3_one_record_each :
    ∀ ocr minDigits,
      (∀ items : List Item,
        (∀ it ∈ items, preprocess_image_run it.imagem ≠ Except.error CvErr.resizeEmpty) →
        processar_imagens ocr minDigits items
          = Except.ok (items.map (processItem ocr minDigits))) ∧
      (∀ it e, ocr (selectOcrInput (preprocess_image it.imagem) it.imagem) = Except.error e →
        (processItem ocr minDigits it).numeroVale = erroMark ∧
        (processItem ocr minDigits it).fornecedor = ("Erro: ").toList ++ e.take 50 ∧
        (processItem ocr minDigits it).arquivo = it.nome ∧
        (processItem ocr minDigits it).origem = it.tipo) ∧
      (∀ (items : List Item) (it : Item), it ∈ items →
        preprocess_image_run it.imagem = Except.error CvErr.resizeEmpty →
        processar_imagens ocr minDigits items = Except.error CvErr.resizeEmpty) := by
  intro ocr m
  refine ⟨?_, ?_, ?_⟩
  · intro items h
    unfold processar_imagens
    simpa using processar_fold_ok ocr m items h []
  · intro it e he
    simp [processItem, he]
  · intro items it hmem hrun
    unfold processar_imagens
    exact processar_fold_mem_err ocr m items it hmem hrun (Except.ok [])

/-- Claim C3 witness: a concrete non-raising one-item batch with an OCR
oracle that raises yields the map shape and the concrete error Record
fields, while the concrete two-item batch whose first image is 2001x1
aborts with the resize error. -/
theorem c3_witness :
    processar_imagens ocrBoom 8 items1 = Except.ok (items1.map (processItem ocrBoom 8)) ∧
    ((processItem ocrBoom 8 item1).numeroVale = erroMark ∧
     (processItem ocrBoom 8 item1).fornecedor = ("Erro: ").toList ++ (("boom").toList).take 50 ∧
     (processItem ocrBoom 8 item1).arquivo = item1.nome ∧
     (processItem ocrBoom 8 item1).origem = item1.tipo) ∧
    processar_imagens ocrBoom 8 itemsAbort = Except.error CvErr.resizeEmpty :=
  ⟨(c3_one_record_each ocrBoom 8).1 items1 (by
      intro it hit
      simp only [items1, List.mem_singleton] at hit
      subst hit
      rw [show preprocess_image_run item1.imagem
          = Except.ok (some (normalizeTail zeroImg)) from rfl]
      exact fun h => Except.noConfusion h),
   (c3_one_record_each ocrBoom 8).2.1 item1 (("boom").toList) rfl,
   (c3_one_record_each ocrBoom 8).2.2 itemsAbort itemTall (by simp [itemsAbort]) (by rfl)⟩

/-- Claim C3 counterexample: a batch of two successfully decoded images
whose first is 2001 pixels tall and one pixel wide — the resize width
`int(1 * (2000/2001))` truncates to zero, `cv2.resize` raises outside the
per-image try, and the batch result is the propagated error: the first
image yields no Record and the second is never processed, refuting
one-Record-per-decoded-image and batch continuation. -/
theorem c3_counterexample :
    processar_imagens ocrBoom 8 itemsAbort = Except.error CvErr.resizeEmpty := rfl

/-- Claim C4 (amended): for every non-null input image (grayscale or BGR)
on which the normalizer returns (its resize does not raise), the output has
height at most 2000, is single-channel, and every pixel is one of AT MOST
two intensity levels, namely 0 or 255 (a constant input image produces only
one attained level, so exactly-two fails; a 2001x1 input produces no output
at all because the resize raises). -/
theorem c4_amended :
    ∀ img : Img, img.channels = 1 ∨ img.channels = 3 →
      preprocess_image_run (some img) ≠ Except.error CvErr.resizeEmpty →
      ∃ g, preprocess_image_run (some img) = Except.ok (some g) ∧
        g.h ≤ 2000 ∧ g.channels = 1 ∧
        ∀ ch i j, g.px ch i j = 0 ∨ g.px ch i j = 255 := by
  intro img hch hne
  have h0 : ¬ (2000 < img.h ∧ pyResizeWidth img.w img.h = 0) := by
    intro hz
    exact hne (preprocess_run_raise img hz.1 hz.2)
  obtain ⟨g, hg, hh, -, hc, hpx⟩ := preprocess_run_dims img h0
  refine ⟨g, hg, ?_, ?_, hpx⟩
  · rw [hh]; split <;> omega
  · rw [hc]; rcases hch with h | h <;> simp [h]

/-- Claim C4 witness: the amended statement applied to the concrete 1x1
grayscale image, whose resize branch is not taken. -/
theorem c4_witness :
    ∃ g, preprocess_image_run (some zeroImg) = Except.ok (some g) ∧
      g.h ≤ 2000 ∧ g.channels = 1 ∧
      ∀ ch i j, g.px ch i j = 0 ∨ g.px ch i j = 255 :=
  c4_amended zeroImg (Or.inl rfl) (by
    rw [preprocess_run_noresize zeroImg (by decide)]
    exact fun h => Except.noConfusion h)

/-- Claim C4 counterexample: on the constant 1x1 image every output pixel is
0, so the output does NOT contain exactly two distinct intensity levels, as
the claim asserts for every non-null input. -/
theorem c4_counterexample : ¬ claimC4at zeroImg := by
  obtain ⟨g0, hg0, hpx⟩ := preprocess_zero_px
  rintro ⟨g, hg, -, -, v1, v2, hne, -, ⟨i1, j1, -, -, e1⟩, ⟨i2, j2, -, -, e2⟩⟩
  rw [hg0] at hg
  obtain rfl := Option.some.inj hg
  exact hne ((e1.symm.trans (hpx 0 i1 j1)).trans (e2.symm.trans (hpx 0 i2 j2)).symm)

/-- Claim C5 (amended): an input taller than 2000 px whose binary64 resize
width `int(w * (2000/h))` is nonzero is downscaled to height exactly 2000
and that width — the truncated double product, which is NOT the claimed
round and can even fall below the exact floor of `w * 2000 / h` (at
98x98000 the code computes width 1 while the exact floor is 2); when the
computed width is zero (for example 1x2001) the resize raises and there is
no output; an input with height at most 2000 keeps its dimensions. -/
theorem c5_amended :
    ∀ img : Img,
      (2000 < img.h → pyResizeWidth img.w img.h ≠ 0 →
        ∃ g, preprocess_image_run (some img) = Except.ok (some g) ∧
          g.h = 2000 ∧ g.w = pyResizeWidth img.w img.h) ∧
      (2000 < img.h → pyResizeWidth img.w img.h = 0 →
        preprocess_image_run (some img) = Except.error CvErr.resizeEmpty) ∧
      (img.h ≤ 2000 →
        ∃ g, preprocess_image_run (some img) = Except.ok (some g) ∧
          g.h = img.h ∧ g.w = img.w) := by
  intro img
  refine ⟨?_, ?_, ?_⟩
  · intro hlt hnw
    refine ⟨_, preprocess_run_resize img hlt hnw, ?_, ?_⟩
    · rw [normalizeTail_h, resizeTo_h]
    · rw [normalizeTail_w, resizeTo_w]
  · exact preprocess_run_raise img
  · intro hle
    refine ⟨_, preprocess_run_noresize img (Nat.not_lt.mpr hle), ?_, ?_⟩
    · rw [normalizeTail_h]
    · rw [normalizeTail_w]

/-- Claim C5 witness: the amended statement at the 4000x3 image (resized to
height 2000, width `int(3 * 0.5) = 1`) and at the 2001x1 image (the resize
raises); the last two conjuncts exhibit the float-against-floor divergence
at 98x98000 that forces the binary64 reading. -/
theorem c5_witness :
    (∃ g, preprocess_image_run (some img4000) = Except.ok (some g) ∧
      g.h = 2000 ∧ g.w = pyResizeWidth img4000.w img4000.h) ∧
    preprocess_image_run (some imgTall) = Except.error CvErr.resizeEmpty ∧
    pyResizeWidth 98 98000 = 1 ∧ 98 * 2000 / 98000 = 2 :=
  ⟨(c5_amended img4000).1 (by decide) (by decide),
   (c5_amended imgTall).2.1 (by decide) (by decide),
   by decide, by decide⟩

/-- Claim C5 counterexample: for the 4000x3 input the code truncates
`3 * 0.5` to width 1, while the claimed `round` gives 2. -/
theorem c5_counterexample : ¬ claimC5at img4000 := by
  rintro ⟨g, hg, -, hw⟩
  have hnw : pyResizeWidth img4000.w img4000.h ≠ 0 := by decide
  have hrun := preprocess_run_resize img4000 (by decide) hnw
  rw [preprocess_image_of_run hrun] at hg
  obtain rfl := Option.some.inj hg
  rw [normalizeTail_w, resizeTo_w] at hw
  exact absurd hw (by decide)

/-- Claim C8: a voucher candidate whose digit count is below the configured
minimum is discarded by the assembler and the voucher field of the Record
becomes the not-found sentinel; the candidate had nevertheless passed the
extractor floor of five digits, so the two filters are distinct and the
caller filter is applied after the extractor one. -/
theorem c8_min_filter :
    ∀ ocr minDigits it texto n,
      ocr (selectOcrInput (preprocess_image it.imagem) it.imagem) = Except.ok texto →
      extract_vale_number texto = some n → n.length < minDigits →
      (processItem ocr minDigits it).numeroVale = notFound ∧ 5 ≤ n.length := by
  intro ocr m it texto n hok hn hlt
  have h5 := (extract_vale_spec hn).2
  refine ⟨?_, h5⟩
  simp only [processItem, hok]
  simp only [applyMinDigits, hn]
  rw [if_pos ⟨by omega, hlt⟩]
  rfl

/-- Claim C8 witness: minimum 10 applied to the 8-digit candidate extracted
from a concrete text discards it. -/
theorem c8_witness :
    (processItem ocrVale8 10 item1).numeroVale = notFound ∧
    5 ≤ (("12345678").toList).length :=
  c8_min_filter ocrVale8 10 item1 (("Vale 12345678").toList) (("12345678").toList)
    rfl (by decide) (by decide)

/-- Claim C9: when normalization yields null, the recognizer input is the
original raw image (the right summand), not an error; and whenever the OCR
oracle returns text, the Record is a success record (its voucher field is
never the ERRO marker), so a normalization failure alone never produces an
error Record. -/
theorem c9_fallback :
    ∀ (orig : Img) (texto : List Char) (minDigits : Nat) (it : Item),
      selectOcrInput none (some orig) = some (Sum.inr orig) ∧
      preprocess_image none = none ∧
      (processItem (fun _ => Except.ok texto) minDigits it).numeroVale ≠ erroMark := by
  intro orig texto m it
  refine ⟨rfl, rfl, ?_⟩
  simp only [processItem]
  cases hv : extract_vale_number texto with
  | none =>
    simp only [hv, applyMinDigits, pyOr]
    decide
  | some n =>
    obtain ⟨hall, h5⟩ := extract_vale_spec hv
    simp only [hv, applyMinDigits]
    split
    · simp only [pyOr]; decide
    · simp only [pyOr]
      split
      · decide
      · intro hEq
        subst hEq
        exact absurd hall (by decide)

/-- Claim C10: the error Record renders the due-date field as the empty
string, which differs from the not-found sentinel, while every success
Record renders the due-date field as a nonempty string (either the
extracted date or the sentinel). -/
theorem c10_error_date :
    ∀ ocr minDigits it e,
      ocr (selectOcrInput (preprocess_image it.imagem) it.imagem) = Except.error e →
      (processItem ocr minDigits it).vencimento = [] ∧
      (([] : List Char) ≠ notFound) ∧
      ∀ texto m2 it2,
        (processItem (fun _ => Except.ok texto) m2 it2).vencimento ≠ [] := by
  intro ocr m it e he
  refine ⟨by simp [processItem, he], by decide, ?_⟩
  intro texto m2 it2
  simp only [processItem]
  cases hv : extract_due_date texto with
  | none => simp only [hv, pyOr]; decide
  | some d =>
    simp only [hv, pyOr]
    split
    · decide
    · next hne =>
      simp only [ne_eq, ← List.isEmpty_iff]
      simpa using hne

/-- Claim C10 witness: the concrete error Record has the empty due-date
field, and the concrete success Record does not. -/
theorem c10_witness :
    (processItem ocrBoom 8 item1).vencimento = [] ∧
    (([] : List Char) ≠ notFound) ∧
    (processItem (fun _ => Except.ok []) 8 item1).vencimento ≠ [] := by
  have h := c10_error_date ocrBoom 8 item1 (("boom").toList) rfl
  exact ⟨h.1, h.2.1, h.2.2 [] 8 item1⟩

/-- Claim C1: whenever the text contains an occurrence of the primary range
pattern (Data, separator, first date, connector a/A/à, second date), the
extractor returns the second date of the (leftmost) matched range, that
value has the day/month/year shape, and it is not the first date of the
range whenever the two differ. -/
theorem c1_range_end :
    ∀ t d1 d2,
      searchAux primaryAt t = some (d1, d2) →
      extract_due_date t = some d2 ∧ isDateShape d2 = true ∧
        (d1 ≠ d2 → extract_due_date t ≠ some d1) := by
  intro t d1 d2 h
  obtain ⟨ys, hy⟩ := searchAux_some h
  have hshape := (primaryAt_shape hy).2
  have he : extract_due_date t = some d2 := by
    cases t with
    | nil =>
      rw [show searchAux primaryAt ([] : List Char) = none from by decide] at h
      exact absurd h (by simp)
    | cons c r => simp [extract_due_date, h]
  refine ⟨he, hshape, ?_⟩
  intro hne hcon
  rw [he] at hcon
  exact hne (Option.some.inj hcon).symm

/-- Claim C1 witness: the concrete range text yields the second date, not
the first. -/
theorem c1_witness :
    extract_due_date (("Data: 01/01/2024 a 15/02/2024").toList) =
        some (("15/02/2024").toList) ∧
      isDateShape (("15/02/2024").toList) = true ∧
      extract_due_date (("Data: 01/01/2024 a 15/02/2024").toList) ≠
        some (("01/01/2024").toList) := by
  have h := c1_range_end (("Data: 01/01/2024 a 15/02/2024").toList)
    (("01/01/2024").toList) (("15/02/2024").toList) (by decide)
  exact ⟨h.1, h.2.1, h.2.2 (by decide)⟩

/-- Claim C2: every candidate returned by the voucher-number extractor is a
digit string of length at least five, and every candidate surviving the
caller-configurable minimum-digit filter additionally has length at least
the configured minimum. -/
theorem c2_digits :
    ∀ texto n minDigits n2,
      (extract_vale_number texto = some n → n.all pyDigit = true ∧ 5 ≤ n.length) ∧
      (applyMinDigits minDigits (extract_vale_number texto) = some n2 →
        n2.all pyDigit = true ∧ 5 ≤ n2.length ∧ minDigits ≤ n2.length) := by
  intro t n m n2
  refine ⟨extract_vale_spec, ?_⟩
  intro h
  cases hv : extract_vale_number t with
  | none => rw [hv] at h; simp [applyMinDigits] at h
  | some q =>
    rw [hv] at h
    simp only [applyMinDigits] at h
    by_cases hcond : 0 < q.length ∧ q.length < m
    · rw [if_pos hcond] at h
      exact absurd h (by simp)
    · rw [if_neg hcond] at h
      obtain rfl := Option.some.inj h
      obtain ⟨ha, h5⟩ := extract_vale_spec hv
      exact ⟨ha, h5, by omega⟩

/-- Claim C2 witness: the concrete text yields the eight-digit candidate,
which survives a minimum of five. -/
theorem c2_witness :
    ((("00045123").toList).all pyDigit = true ∧ 5 ≤ (("00045123").toList).length) ∧
    ((("00045123").toList).all pyDigit = true ∧ 5 ≤ (("00045123").toList).length ∧
      5 ≤ (("00045123").toList).length) :=
  ⟨(c2_digits (("Vale nº 00045123").toList) (("00045123").toList) 5
      (("00045123").toList)).1 (by decide),
   (c2_digits (("Vale nº 00045123").toList) (("00045123").toList) 5
      (("00045123").toList)).2 (by decide)⟩

/-- Claim C6 (amended): when the primary range pattern fails, the extractor
returns the date of the leftmost fallback occurrence, where the fallback
requires a period or colon separator (with optional surrounding whitespace)
between the keyword (Vencimento, or Venc with optional period) and the
date; the Vencimento pattern takes priority; when neither primary nor
fallback matches, the result is not found. -/
theorem c6_amended :
    ∀ t d d2,
      searchAux primaryAt t = none →
      ((searchAux venc1At t = some d →
          extract_due_date t = some d ∧ isDateShape d = true) ∧
       (searchAux venc1At t = none → searchAux venc2At t = some d2 →
          extract_due_date t = some d2 ∧ isDateShape d2 = true) ∧
       (searchAux venc1At t = none → searchAux venc2At t = none →
          extract_due_date t = none)) := by
  intro t d d2 hp
  have hext : extract_due_date t =
      (match searchAux venc1At t with
       | some x => some x
       | none => searchAux venc2At t) := by
    cases t with
    | nil => rfl
    | cons c r => simp [extract_due_date, hp]
  refine ⟨?_, ?_, ?_⟩
  · intro h1
    obtain ⟨ys, hy⟩ := searchAux_some h1
    rw [hext, h1]
    exact ⟨rfl, venc1At_shape hy⟩
  · intro hn1 h2
    obtain ⟨ys, hy⟩ := searchAux_some h2
    rw [hext, hn1, h2]
    exact ⟨rfl, venc2At_shape hy⟩
  · intro hn1 hn2
    rw [hext, hn1, hn2]

/-- Claim C6 witness: a concrete text where the primary fails and the Venc
fallback (with its period separator) fires. -/
theorem c6_witness :
    extract_due_date (("Venc. 10/11/2024").toList) = some (("10/11/2024").toList) ∧
      isDateShape (("10/11/2024").toList) = true :=
  (c6_amended (("Venc. 10/11/2024").toList) [] (("10/11/2024").toList)
      (by decide)).2.1 (by decide) (by decide)

/-- Claim C6 counterexample: the text has a date directly following the
keyword Vencimento (so the claimed fallback occurrence exists and the
primary fails), yet the extractor returns none, because the code requires a
period or colon separator between keyword and date. -/
theorem c6_counterexample :
    claimC6directDate (("Vencimento01/02/2024").toList) =
        some (("01/02/2024").toList) ∧
      searchAux primaryAt (("Vencimento01/02/2024").toList) = none ∧
      extract_due_date (("Vencimento01/02/2024").toList) = none :=
  ⟨by decide, by decide, by decide⟩

/-- Claim C7: every supplier value returned by the extractor is the prefix
of the stripped captured candidate before the first delimiter (a run of two
or more whitespace characters, a hyphen, or a pipe), hence contains no such
delimiter, and has more than three characters. -/
theorem c7_truncation :
    ∀ t s, extract_supplier t = some s →
      noDelim s = true ∧ 3 < s.length ∧
        ∃ g, (searchAux suppP1At t = some g ∨ searchAux suppP2At t = some g ∨
              searchAux suppP3At t = some g) ∧ s = splitHead (pyStrip g) := by
  intro t s h
  exact extract_supplier_spec h

/-- Claim C7 witness: the concrete text yields the supplier truncated before
the double space. -/
theorem c7_witness :
    extract_supplier (("Fornecedor: Comercial ABC Ltda   Vale 123456").toList) =
        some (("Comercial ABC Ltda").toList) ∧
      noDelim (("Comercial ABC Ltda").toList) = true ∧
      3 < (("Comercial ABC Ltda").toList).length ∧
      ∃ g, (searchAux suppP1At
              (("Fornecedor: Comercial ABC Ltda   Vale 123456").toList) = some g ∨
            searchAux suppP2At
              (("Fornecedor: Comercial ABC Ltda   Vale 123456").toList) = some g ∨
            searchAux suppP3At
              (("Fornecedor: Comercial ABC Ltda   Vale 123456").toList) = some g) ∧
        ("Comercial ABC Ltda").toList = splitHead (pyStrip g) :=
  ⟨by decide, c7_truncation _ _ (by decide)⟩

/-- Claim C9 witness: the selection and success-record facts at concrete
inputs. -/
theorem c9_witness :
    selectOcrInput none (some zeroImg) = some (Sum.inr zeroImg) ∧
    preprocess_image none = none ∧
    (processItem (fun _ => Except.ok []) 8 item1).numeroVale ≠ erroMark :=
  c9_fallback zeroImg [] 8 item1
